import Mathlib

/-!
Verification of the `hacker-ostree` command-line package-management shim
(`src/main.rs`) against its natural-language specification.

The program is embedded shallowly:

* The two persistent stores are modelled as fields of a state record `St`:
  `repos` models `/etc/hacker-ostree/repos.json` (`none` = file absent,
  `some l` = file present holding the JSON array `l`; `serde_json`
  round-trips a `Vec<String>` exactly, so the file is modelled by the list
  it denotes), and `pkgs` models
  `/var/lib/hacker-ostree/installed_packages.txt` as the list of text
  lines the file holds (`none` = file absent).
* Every external process invocation (`apt-get`, `apt-cache`, `dpkg`,
  `ostree`, `rm`, `ls`) goes through `run_command`, whose outcome is
  supplied by an oracle `Beh` indexed by the number of commands issued so
  far, so arbitrary (also stateful) behaviour of the external world is
  expressible.  Each invocation is also appended to a `trace` so that
  "which commands were issued" is observable.
* Fallible Rust functions returning `Result<T, String>` become values of
  `M T = St → Except String T × St`; the `?` operator is `mbind`.
* `create_dir_all` and temporary-file creation fail only on host I/O
  errors outside the modelled state and are modelled as always succeeding;
  the temporary sources path is the fixed placeholder `tempSourcesPath`
  (the path string itself is never inspected by the program).
* Rust `str::trim` and `split('\n')` are embedded as `trimStr` and
  `splitNl` on the character list underlying a `String`.
-/

/-- Whitespace test used by `trimData`; embeds Rust `char::is_whitespace`,
i.e. the Unicode `White_Space` property: U+0009–U+000D, U+0020, U+0085,
U+00A0, U+1680, U+2000–U+200A, U+2028, U+2029, U+202F, U+205F, U+3000. -/
def isWs (c : Char) : Bool :=
  decide ((0x09 ≤ c.val ∧ c.val ≤ 0x0D) ∨ c.val = 0x20 ∨ c.val = 0x85 ∨ c.val = 0xA0 ∨
    c.val = 0x1680 ∨ (0x2000 ≤ c.val ∧ c.val ≤ 0x200A) ∨ c.val = 0x2028 ∨ c.val = 0x2029 ∨
    c.val = 0x202F ∨ c.val = 0x205F ∨ c.val = 0x3000)

/-- Embedding of Rust `str::trim` on the underlying character list:
drop whitespace from the front, then from the back. -/
def trimData (l : List Char) : List Char :=
  ((l.dropWhile isWs).reverse.dropWhile isWs).reverse

/-- Embedding of Rust `str::trim`. -/
def trimStr (s : String) : String := String.mk (trimData s.data)

/-- Embedding of Rust `split('\n')` on the underlying character list:
`[]` yields `[[]]`, a separator opens a new chunk. -/
def splitNlData : List Char → List (List Char)
  | [] => [[]]
  | c :: rest =>
    match splitNlData rest with
    | [] => [[c]]
    | h :: t => if c = '\n' then [] :: h :: t else (c :: h) :: t

/-- Embedding of Rust `split('\n')` on strings. -/
def splitNl (s : String) : List String := (splitNlData s.data).map String.mk

/-- Outcome of spawning one external command, chosen by the oracle. -/
inductive CmdOut where
  | spawnErr (msg : String)
  | exited (ok : Bool) (stdout stderr : String)
deriving DecidableEq

/-- Oracle for the external world: given the number of commands already
issued, the executable name and the argument list, produce the outcome. -/
def Beh : Type := Nat → String → List String → CmdOut

/-- Program state: the two persistent stores, plus the count and trace of
external commands issued so far. -/
structure St where
  repos : Option (List String)
  pkgs : Option (List String)
  calls : Nat
  trace : List (String × List String)
deriving DecidableEq

/-- Shallow embedding of `Result<α, String>`-returning functions:
state in, result and state out.  An `Except.error` models early return
via `?`; the state already mutated up to that point is kept. -/
def M (α : Type) : Type := St → Except String α × St

/-- `Ok(a)`. -/
def mpure {α : Type} (a : α) : M α := fun s => (Except.ok a, s)

/-- Sequencing with `?`: on error, short-circuit. -/
def mbind {α β : Type} (x : M α) (f : α → M β) : M β := fun s =>
  match x s with
  | (Except.ok a, s') => f a s'
  | (Except.error e, s') => (Except.error e, s')

/-- `return Err(e)`. -/
def mthrow {α : Type} (e : String) : M α := fun s => (Except.error e, s)

/-- `const CACHE_DIR` from the source. -/
def CACHE_DIR : String := "/var/lib/hacker-ostree/apt-cache"

/-- `const OVERLAY_DIR` from the source. -/
def OVERLAY_DIR : String := "/var/lib/hacker-ostree/overlay"

/-- Placeholder for the `NamedTempFile` path (never inspected). -/
def tempSourcesPath : String := "/tmp/hacker-ostree-sources.list"

/-- `format!("Dir::Cache={}", CACHE_DIR)`. -/
def cacheDirOpt : String := "Dir::Cache=" ++ CACHE_DIR

/-- `format!("Dir::Etc::SourceList={}", sources_path)`. -/
def sourceListOpt : String := "Dir::Etc::SourceList=" ++ tempSourcesPath

/-- Argument list of the `apt-get update` invocation in `apt_update`. -/
def aptUpdateArgs : List String :=
  ["update", "-o", cacheDirOpt, "-o", sourceListOpt, "-o", "Dir::Etc::SourceParts=-"]

/-- Argument list of the `apt-get download` invocation in `install_package`. -/
def downloadArgs (pkg : String) : List String :=
  ["download", pkg, "-o", cacheDirOpt, "-o", sourceListOpt, "-o", "Dir::Etc::SourceParts=-"]

/-- `format!("{}/{}_*.deb", CACHE_DIR, package)`. -/
def debPattern (pkg : String) : String := CACHE_DIR ++ "/" ++ pkg ++ "_*.deb"

/-- `dpkg` arguments used to install a downloaded archive into the overlay. -/
def dpkgInstallArgs (debPath : String) : List String :=
  ["--instdir", OVERLAY_DIR, "--force-not-root", "--force-overwrite", "-i", debPath]

/-- `dpkg` arguments used by `remove_package`. -/
def dpkgRemoveArgs (pkg : String) : List String :=
  ["--instdir", OVERLAY_DIR, "--force-not-root", "-r", pkg]

/-- State after one external command has been spawned: the counter is
advanced and the invocation recorded in the trace. -/
def bump (s : St) (cmd : String) (args : List String) : St :=
  { s with calls := s.calls + 1, trace := s.trace ++ [(cmd, args)] }

/-- Embedding of `run_command`: consult the oracle, map a spawn failure or
a non-zero exit to the error strings built by the source, return stdout on
success. -/
def run_command (beh : Beh) (cmd : String) (args : List String) : M String := fun s =>
  match beh s.calls cmd args with
  | CmdOut.spawnErr msg =>
      (Except.error ("Failed to execute " ++ cmd ++ ": " ++ msg), bump s cmd args)
  | CmdOut.exited true out _ => (Except.ok out, bump s cmd args)
  | CmdOut.exited false _ stderr =>
      (Except.error ("Command failed: " ++ cmd ++ "\nStderr: " ++ stderr), bump s cmd args)

/-- Embedding of `ensure_dirs`: `create_dir_all` mutates nothing modelled
and fails only on host I/O errors outside the model. -/
def ensure_dirs : M Unit := mpure ()

/-- The repository sequence the store currently denotes (absent file reads
as the empty sequence). -/
def reposList (s : St) : List String := s.repos.getD []

/-- Embedding of `load_repos`: empty list when the file is absent,
otherwise the parsed JSON array. -/
def load_repos : M (List String) := fun s => (Except.ok (reposList s), s)

/-- Embedding of `save_repos`: overwrite the file wholesale. -/
def save_repos (repos : List String) : M Unit := fun s =>
  (Except.ok (), { s with repos := some repos })

/-- Embedding of `create_temp_sources_list`: loads the repositories and
writes them to a temporary file outside the modelled state. -/
def create_temp_sources_list : M Unit :=
  mbind load_repos fun _ => mpure ()

/-- Embedding of `apt_update`. -/
def apt_update (beh : Beh) : M Unit :=
  mbind ensure_dirs fun _ =>
  mbind create_temp_sources_list fun _ =>
  mbind (run_command beh "apt-get" aptUpdateArgs) fun _ =>
  mpure ()

/-- The installed-package sequence the store currently denotes: each text
line trimmed, blank lines skipped (`load_installed_packages`'s loop). -/
def loadInstalledList (s : St) : List String :=
  ((s.pkgs.getD []).map trimStr).filter (fun q => q ≠ "")

/-- Embedding of `load_installed_packages`. -/
def load_installed_packages : M (List String) := fun s =>
  (Except.ok (loadInstalledList s), s)

/-- Embedding of `save_installed_packages`: `writeln!` of each name; the
file's resulting lines are the names, names containing `'\n'` spanning
several lines. -/
def save_installed_packages (packages : List String) : M Unit := fun s =>
  (Except.ok (), { s with pkgs := some (packages.flatMap fun p => splitNl p) })

/-- Embedding of `install_package`.  The source's
`deb_files.is_empty() || deb_files[0].is_empty()` guard is rendered with
`headD ""` (the index `[0]` is only reached when the list is non-empty). -/
def install_package (beh : Beh) (pkg : String) : M Unit :=
  mbind ensure_dirs fun _ =>
  mbind (apt_update beh) fun _ =>
  mbind create_temp_sources_list fun _ =>
  mbind (run_command beh "apt-get" (downloadArgs pkg)) fun _ =>
  mbind (run_command beh "ls" [debPattern pkg]) fun ls_output =>
  if splitNl (trimStr ls_output) = [] ∨ (splitNl (trimStr ls_output)).headD "" = "" then
    mthrow ("No .deb file found for " ++ pkg)
  else
    mbind (run_command beh "dpkg" (dpkgInstallArgs ((splitNl (trimStr ls_output)).headD ""))) fun _ =>
    mbind load_installed_packages fun installed =>
    if pkg ∈ installed then mpure ()
    else mbind (save_installed_packages (installed ++ [pkg])) fun _ => mpure ()

/-- Embedding of `remove_package`. -/
def remove_package (beh : Beh) (pkg : String) : M Unit :=
  mbind (run_command beh "dpkg" (dpkgRemoveArgs pkg)) fun _ =>
  mbind load_installed_packages fun installed =>
  mbind (save_installed_packages (installed.filter fun q => q ≠ pkg)) fun _ =>
  mpure ()

/-- Embedding of `list_packages`. -/
def list_packages : M (List String) := load_installed_packages

/-- Embedding of `search_package`. -/
def search_package (beh : Beh) (query : String) : M String :=
  mbind create_temp_sources_list fun _ =>
  run_command beh "apt-cache"
    ["search", "-o", sourceListOpt, "-o", "Dir::Etc::SourceParts=-", query]

/-- The `for pkg in installed { install_package(&pkg)?; }` loop shared by
`upgrade_packages` and `resync_overlay`. -/
def install_each (beh : Beh) : List String → M Unit
  | [] => mpure ()
  | pkg :: rest => mbind (install_package beh pkg) fun _ => install_each beh rest

/-- Embedding of `upgrade_packages`. -/
def upgrade_packages (beh : Beh) : M Unit :=
  mbind (apt_update beh) fun _ =>
  mbind load_installed_packages fun installed =>
  install_each beh installed

/-- Embedding of `resync_overlay`. -/
def resync_overlay (beh : Beh) : M Unit :=
  mbind load_installed_packages fun installed =>
  install_each beh installed

/-- Embedding of `system_update`. -/
def system_update (beh : Beh) : M Unit :=
  mbind (run_command beh "ostree" ["pull", "origin", "main"]) fun _ =>
  mbind (run_command beh "ostree" ["admin", "deploy", "origin:main"]) fun _ =>
  resync_overlay beh

/-- Embedding of `rollback`. -/
def rollback (beh : Beh) : M Unit :=
  mbind (run_command beh "ostree" ["admin", "undeploy", "0"]) fun _ =>
  mpure ()

/-- Embedding of `clean_cache`. -/
def clean_cache (beh : Beh) : M Unit :=
  mbind (run_command beh "rm" ["-rf", CACHE_DIR ++ "/archives/*"]) fun _ =>
  mpure ()

/-- Embedding of `add_repo`. -/
def add_repo (repo_line : String) : M Unit :=
  mbind load_repos fun repos =>
  mbind (save_repos (repos ++ [repo_line])) fun _ =>
  mpure ()

/-- Embedding of `remove_repo`: `Vec::remove(index)` is `eraseIdx`. -/
def remove_repo (index : Nat) : M Unit :=
  mbind load_repos fun repos =>
  if index < repos.length then
    mbind (save_repos (repos.eraseIdx index)) fun _ => mpure ()
  else
    mthrow "Invalid index"

/-- Embedding of `list_repos`. -/
def list_repos : M (List String) := load_repos

/-- The parsed invocation handed to `main`'s dispatch `match`.  Argument
parsing itself is performed by the external `clap` library (see
`get_matches` below); `cOther` models an invocation that reaches the
dispatch with no subcommand, i.e. the `match`'s wildcard arm. -/
inductive Cmd where
  | cUpdate
  | cUpgrade
  | cSystemUpdate
  | cSystemUpgrade
  | cInstall (pkg : String)
  | cRemove (pkg : String)
  | cList
  | cSearch (query : String)
  | cRollback
  | cResync
  | cClean
  | cRepoList
  | cRepoAdd (line : String)
  | cRepoRemove (indexStr : String)
  | cRepoInvalid
  | cOther
deriving DecidableEq

/-- The static usage summary printed by `main`'s wildcard arm, with the
newline each `println!` appends. -/
def usageText : String :=
  "Usage: hacker-ostree <COMMAND>\n\n" ++
  "Commands:\n" ++
  "  update          Update APT cache\n" ++
  "  upgrade         Upgrade all installed packages in overlay\n" ++
  "  system-update   Update the system via OSTree pull and deploy\n" ++
  "  system-upgrade  Alias for system-update\n" ++
  "  install         Install a DEB package to overlay\n" ++
  "  remove          Remove a DEB package from overlay\n" ++
  "  list            List installed packages\n" ++
  "  search          Search for packages in APT repositories\n" ++
  "  rollback        Rollback to previous OSTree commit\n" ++
  "  resync          Resync overlay with installed packages\n" ++
  "  clean           Clean APT cache\n" ++
  "  repo list       List repositories\n" ++
  "  repo add        Add a repository\n" ++
  "  repo remove     Remove a repository by index\n"

/-- Embedding of `main`'s dispatch.  The result value is the text printed
to standard output; `Except.ok` is process exit status 0, `Except.error`
the propagated error (non-zero exit).  `usize::from_str` for
`repo remove` is `String.toNat?`. -/
def mainRun (beh : Beh) : Cmd → M String
  | Cmd.cUpdate => mbind (apt_update beh) fun _ => mpure ""
  | Cmd.cUpgrade => mbind (upgrade_packages beh) fun _ => mpure ""
  | Cmd.cSystemUpdate => mbind (system_update beh) fun _ => mpure ""
  | Cmd.cSystemUpgrade => mbind (system_update beh) fun _ => mpure ""
  | Cmd.cInstall pkg => mbind (install_package beh pkg) fun _ => mpure ""
  | Cmd.cRemove pkg => mbind (remove_package beh pkg) fun _ => mpure ""
  | Cmd.cList =>
      mbind list_packages fun pkgs =>
      mpure ("Installed packages:\n" ++ String.join (pkgs.map fun p => "- " ++ p ++ "\n"))
  | Cmd.cSearch query => search_package beh query
  | Cmd.cRollback => mbind (rollback beh) fun _ => mpure ""
  | Cmd.cResync => mbind (resync_overlay beh) fun _ => mpure ""
  | Cmd.cClean => mbind (clean_cache beh) fun _ => mpure ""
  | Cmd.cRepoList =>
      mbind list_repos fun repos =>
      mpure ("Repositories:\n" ++
        String.join ((repos.enum.map fun ir => toString ir.1 ++ ": " ++ ir.2 ++ "\n")))
  | Cmd.cRepoAdd line => mbind (add_repo line) fun _ => mpure ""
  | Cmd.cRepoRemove indexStr =>
      match indexStr.toNat? with
      | some index => mbind (remove_repo index) fun _ => mpure ""
      | none => mthrow ("invalid digit found in string: " ++ indexStr)
  | Cmd.cRepoInvalid => mpure "Invalid repo subcommand\n"
  | Cmd.cOther => mpure usageText

/-- Well-formed installed-package store: each stored text line is really
one line, i.e. contains no `'\n'`.  Every state produced by reading a real
file satisfies this. -/
def WfSt (s : St) : Prop := ∀ l ∈ s.pkgs.getD [], '\n' ∉ l.data

/-- Oracle under which every external command succeeds with stdout
`"pkg.deb"` (in particular `ls` reports one matching archive). -/
def behAll : Beh := fun _ _ _ => CmdOut.exited true "pkg.deb" ""

/-- Oracle under which every external command fails with exit status 1. -/
def behFail : Beh := fun _ _ _ => CmdOut.exited false "" "network down"

/-- Oracle under which exactly the `apt-get download b` invocation fails
and every other command succeeds with stdout `"pkg.deb"`. -/
def behDownloadBFails : Beh := fun _ cmd args =>
  if cmd = "apt-get" ∧ args.headD "" = "download" ∧ args.getD 1 "" = "b" then
    CmdOut.exited false "" "no candidate"
  else
    CmdOut.exited true "pkg.deb" ""

/-- Oracle under which `ls` succeeds with empty stdout (no archive
matched) and every other command succeeds. -/
def behLsEmpty : Beh := fun _ cmd _ =>
  if cmd = "ls" then CmdOut.exited true "" "" else CmdOut.exited true "pkg.deb" ""

/-- Initial state: both store files absent, no commands issued. -/
def stEmpty : St := { repos := none, pkgs := none, calls := 0, trace := [] }

/-- State whose installed-package file holds the single line `a`. -/
def stA : St := { repos := none, pkgs := some ["a"], calls := 0, trace := [] }

/-- State whose installed-package file holds the lines `a`, `b`. -/
def stAB : St := { repos := none, pkgs := some ["a", "b"], calls := 0, trace := [] }

/-- State whose repository file holds the two entries `r0`, `r1`. -/
def stR : St := { repos := some ["r0", "r1"], pkgs := none, calls := 0, trace := [] }

/-- The subcommand names declared on the top-level `clap` command in
`main`. -/
def clapTopNames : List String :=
  ["update", "upgrade", "system-update", "system-upgrade", "install", "remove",
   "list", "search", "rollback", "resync", "clean", "repo"]

/-- The parse error with which `clap` rejects an argument vector,
standing for its error message printed before the nonzero process exit. -/
def clapErr (argv : List String) : Except String Cmd :=
  Except.error ("error: unrecognized or invalid arguments: " ++ String.intercalate " " argv)

/-- Modelled behaviour of the external `clap` argument parser (a library
dependency, not repository code), following `get_matches`'s documented
semantics for the command declaration in `main`: no arguments parse to
matches with no subcommand (`Cmd.cOther`, the dispatch wildcard arm);
`repo` with no nested subcommand reaches the inner wildcard arm; an
unrecognized subcommand, a missing required positional argument or a
surplus argument makes `get_matches` print an error and exit with a
nonzero status before the dispatch runs, modelled as `Except.error`.
The automatic help/version flags are outside the modelled argument
vectors. -/
def get_matches : List String → Except String Cmd
  | [] => Except.ok Cmd.cOther
  | t :: rest =>
    if t = "update" then (if rest = [] then Except.ok Cmd.cUpdate else clapErr (t :: rest))
    else if t = "upgrade" then (if rest = [] then Except.ok Cmd.cUpgrade else clapErr (t :: rest))
    else if t = "system-update" then
      (if rest = [] then Except.ok Cmd.cSystemUpdate else clapErr (t :: rest))
    else if t = "system-upgrade" then
      (if rest = [] then Except.ok Cmd.cSystemUpgrade else clapErr (t :: rest))
    else if t = "install" then
      (match rest with | [pkg] => Except.ok (Cmd.cInstall pkg) | _ => clapErr (t :: rest))
    else if t = "remove" then
      (match rest with | [pkg] => Except.ok (Cmd.cRemove pkg) | _ => clapErr (t :: rest))
    else if t = "list" then (if rest = [] then Except.ok Cmd.cList else clapErr (t :: rest))
    else if t = "search" then
      (match rest with | [q] => Except.ok (Cmd.cSearch q) | _ => clapErr (t :: rest))
    else if t = "rollback" then
      (if rest = [] then Except.ok Cmd.cRollback else clapErr (t :: rest))
    else if t = "resync" then (if rest = [] then Except.ok Cmd.cResync else clapErr (t :: rest))
    else if t = "clean" then (if rest = [] then Except.ok Cmd.cClean else clapErr (t :: rest))
    else if t = "repo" then
      match rest with
      | [] => Except.ok Cmd.cRepoInvalid
      | u :: rest2 =>
        if u = "list" then (if rest2 = [] then Except.ok Cmd.cRepoList else clapErr (t :: rest))
        else if u = "add" then
          (match rest2 with | [line] => Except.ok (Cmd.cRepoAdd line) | _ => clapErr (t :: rest))
        else if u = "remove" then
          (match rest2 with | [idx] => Except.ok (Cmd.cRepoRemove idx) | _ => clapErr (t :: rest))
        else clapErr (t :: rest)
    else clapErr (t :: rest)

/-- The full front end: `clap` parsing followed by `main`'s dispatch.
A parse error is `clap`'s error message and nonzero process exit before
the dispatch runs, so it touches nothing. -/
def mainFront (beh : Beh) (argv : List String) : M String := fun s =>
  match get_matches argv with
  | Except.ok c => mainRun beh c s
  | Except.error e => (Except.error e, s)

theorem dropWhile_head_false {α : Type} {p : α → Bool} {l : List α} {x : α} {t : List α}
    (h : l.dropWhile p = x :: t) : p x = false := by
  induction l generalizing x t with
  | nil => simp at h
  | cons a l ih =>
    by_cases hpa : p a
    · rw [List.dropWhile_cons_of_pos hpa] at h
      exact ih h
    · rw [List.dropWhile_cons_of_neg hpa] at h
      cases h
      simpa using hpa

theorem dropWhile_of_head_false {α : Type} {p : α → Bool} {l : List α}
    (h : ∀ x t, l = x :: t → p x = false) : l.dropWhile p = l := by
  cases l with
  | nil => rfl
  | cons a t =>
    have ha : p a = false := h a t rfl
    simp [List.dropWhile_cons, ha]

theorem dropWhile_idem {α : Type} (p : α → Bool) (l : List α) :
    (l.dropWhile p).dropWhile p = l.dropWhile p :=
  dropWhile_of_head_false fun _ _ h => dropWhile_head_false h

theorem reverse_dropWhile_append_last {α : Type} {p : α → Bool} (w : List α) (c : α)
    (hc : p c = false) : ∃ u, ((w ++ [c]).dropWhile p).reverse = c :: u := by
  induction w with
  | nil =>
    refine ⟨[], ?_⟩
    simp [List.dropWhile_cons, hc]
  | cons a w ih =>
    by_cases hpa : p a
    · obtain ⟨u, hu⟩ := ih
      refine ⟨u, ?_⟩
      rw [List.cons_append, List.dropWhile_cons_of_pos hpa]
      exact hu
    · refine ⟨(w ++ [c]).reverse.tail ++ [a], ?_⟩
      rw [List.cons_append, List.dropWhile_cons_of_neg hpa]
      rw [List.reverse_cons]
      have : (w ++ [c]).reverse = c :: (w ++ [c]).reverse.tail := by
        rw [List.reverse_append]
        rfl
      rw [this]
      rfl

theorem revDrop_head_false {α : Type} {p : α → Bool} {y : List α}
    (hy : ∀ x t, y = x :: t → p x = false) :
    ∀ x t, (y.reverse.dropWhile p).reverse = x :: t → p x = false := by
  cases y with
  | nil => intro x t h; simp at h
  | cons c ys =>
    have hc : p c = false := hy c ys rfl
    intro x t h
    obtain ⟨u, hu⟩ := reverse_dropWhile_append_last (p := p) ys.reverse c hc
    rw [List.reverse_cons] at h
    rw [hu] at h
    cases h
    exact hc

theorem trimData_idem (l : List Char) : trimData (trimData l) = trimData l := by
  have h1 : (trimData l).dropWhile isWs = trimData l := by
    refine dropWhile_of_head_false ?_
    unfold trimData
    exact revDrop_head_false fun _ _ h => dropWhile_head_false h
  show (((trimData l).dropWhile isWs).reverse.dropWhile isWs).reverse = trimData l
  rw [h1]
  show (((((l.dropWhile isWs).reverse.dropWhile isWs).reverse).reverse).dropWhile isWs).reverse
      = trimData l
  rw [List.reverse_reverse, dropWhile_idem]
  rfl

theorem trimStr_idem (s : String) : trimStr (trimStr s) = trimStr s := by
  show String.mk (trimData (String.mk (trimData s.data)).data) = String.mk (trimData s.data)
  rw [show (String.mk (trimData s.data)).data = trimData s.data from rfl, trimData_idem]

theorem mem_of_mem_trimData {x : Char} {l : List Char} (h : x ∈ trimData l) : x ∈ l := by
  unfold trimData at h
  rw [List.mem_reverse] at h
  have h2 := List.dropWhile_subset (l := (l.dropWhile isWs).reverse) isWs h
  rw [List.mem_reverse] at h2
  exact List.dropWhile_subset isWs h2

theorem splitNlData_no_nl : ∀ {l : List Char}, '\n' ∉ l → splitNlData l = [l] := by
  intro l
  induction l with
  | nil => intro _; rfl
  | cons c rest ih =>
    intro h
    have hc : ¬ c = '\n' := fun hh => h (hh ▸ List.mem_cons_self c rest)
    have hr : splitNlData rest = [rest] := ih fun hm => h (List.mem_cons_of_mem _ hm)
    unfold splitNlData
    rw [hr]
    simp [hc]

theorem splitNl_no_nl {s : String} (h : '\n' ∉ s.data) : splitNl s = [s] := by
  unfold splitNl
  rw [splitNlData_no_nl h]
  rfl

theorem mbind_eq_ok {α β : Type} {x : M α} {s s' : St} {a : α}
    (h : x s = (Except.ok a, s')) (f : α → M β) : mbind x f s = f a s' := by
  unfold mbind
  rw [h]

theorem mbind_eq_err {α β : Type} {x : M α} {s s' : St} {e : String}
    (h : x s = (Except.error e, s')) (f : α → M β) : mbind x f s = (Except.error e, s') := by
  unfold mbind
  rw [h]

theorem run_command_split (beh : Beh) (cmd : String) (args : List String) (s : St) :
    (∃ o, run_command beh cmd args s = (Except.ok o, bump s cmd args)) ∨
    (∃ e, run_command beh cmd args s = (Except.error e, bump s cmd args)) := by
  unfold run_command
  cases hb : beh s.calls cmd args with
  | spawnErr m => exact Or.inr ⟨_, rfl⟩
  | exited ok o err =>
    cases ok
    · exact Or.inr ⟨_, rfl⟩
    · exact Or.inl ⟨o, rfl⟩

theorem bump_pkgs (s : St) (cmd : String) (args : List String) :
    (bump s cmd args).pkgs = s.pkgs := rfl

theorem bump_repos (s : St) (cmd : String) (args : List String) :
    (bump s cmd args).repos = s.repos := rfl

theorem ensure_dirs_eq (s : St) : ensure_dirs s = (Except.ok (), s) := rfl

theorem create_temp_eq (s : St) : create_temp_sources_list s = (Except.ok (), s) := rfl

theorem load_repos_eq (s : St) : load_repos s = (Except.ok (reposList s), s) := rfl

theorem load_installed_eq (s : St) :
    load_installed_packages s = (Except.ok (loadInstalledList s), s) := rfl

theorem save_installed_eq (packages : List String) (s : St) :
    save_installed_packages packages s =
      (Except.ok (), { s with pkgs := some (packages.flatMap fun p => splitNl p) }) := rfl

theorem loadInstalled_congr {s t : St} (h : s.pkgs = t.pkgs) :
    loadInstalledList s = loadInstalledList t := by
  unfold loadInstalledList
  rw [h]

theorem apt_update_split (beh : Beh) (s : St) :
    apt_update beh s = (Except.ok (), bump s "apt-get" aptUpdateArgs) ∨
    ∃ e, apt_update beh s = (Except.error e, bump s "apt-get" aptUpdateArgs) := by
  unfold apt_update
  rw [mbind_eq_ok (ensure_dirs_eq s), mbind_eq_ok (create_temp_eq s)]
  rcases run_command_split beh "apt-get" aptUpdateArgs s with ⟨o, h⟩ | ⟨e, h⟩
  · rw [mbind_eq_ok h]
    exact Or.inl rfl
  · rw [mbind_eq_err h]
    exact Or.inr ⟨e, rfl⟩

theorem apt_update_state (beh : Beh) (s : St) :
    (apt_update beh s).2 = bump s "apt-get" aptUpdateArgs := by
  rcases apt_update_split beh s with h | ⟨e, h⟩ <;> rw [h]

theorem apt_update_pkgs (beh : Beh) (s : St) : (apt_update beh s).2.pkgs = s.pkgs := by
  rw [apt_update_state]
  rfl

theorem rollback_state (beh : Beh) (s : St) :
    (rollback beh s).2 = bump s "ostree" ["admin", "undeploy", "0"] := by
  unfold rollback
  rcases run_command_split beh "ostree" ["admin", "undeploy", "0"] s with ⟨o, h⟩ | ⟨e, h⟩
  · rw [mbind_eq_ok h]
    rfl
  · rw [mbind_eq_err h]

theorem mbind_ensure {β : Type} (f : Unit → M β) (s : St) :
    mbind ensure_dirs f s = f () s := rfl

theorem mbind_create_temp {β : Type} (f : Unit → M β) (s : St) :
    mbind create_temp_sources_list f s = f () s := rfl

theorem mbind_load_installed {β : Type} (f : List String → M β) (s : St) :
    mbind load_installed_packages f s = f (loadInstalledList s) s := rfl

theorem mbind_load_repos {β : Type} (f : List String → M β) (s : St) :
    mbind load_repos f s = f (reposList s) s := rfl

theorem mbind_save_installed {β : Type} (l : List String) (f : Unit → M β) (s : St) :
    mbind (save_installed_packages l) f s =
      f () { s with pkgs := some (l.flatMap fun p => splitNl p) } := rfl

theorem mbind_save_repos {β : Type} (l : List String) (f : Unit → M β) (s : St) :
    mbind (save_repos l) f s = f () { s with repos := some l } := rfl

theorem mpure_eq {α : Type} (a : α) (s : St) : mpure a s = (Except.ok a, s) := rfl

theorem mthrow_eq {α : Type} (e : String) (s : St) :
    (mthrow e : M α) s = (Except.error e, s) := rfl

theorem loadI_bump (s : St) (cmd : String) (args : List String) :
    loadInstalledList (bump s cmd args) = loadInstalledList s := rfl

theorem install_package_total (beh : Beh) (pkg : String) (s : St) :
    (∃ e s', install_package beh pkg s = (Except.error e, s') ∧ s'.pkgs = s.pkgs) ∨
    (∃ s', install_package beh pkg s = (Except.ok (), s') ∧
      ((pkg ∈ loadInstalledList s ∧ s'.pkgs = s.pkgs) ∨
       (pkg ∉ loadInstalledList s ∧
        s'.pkgs = some ((loadInstalledList s ++ [pkg]).flatMap fun q => splitNl q)))) := by
  unfold install_package
  simp only [mbind_ensure]
  rcases apt_update_split beh s with h1 | ⟨e1, h1⟩
  · simp only [mbind_eq_ok h1, mbind_create_temp]
    generalize hg1 : bump s "apt-get" aptUpdateArgs = s1
    have hp1 : s1.pkgs = s.pkgs := by rw [← hg1]; rfl
    rcases run_command_split beh "apt-get" (downloadArgs pkg) s1 with ⟨o2, h2⟩ | ⟨e2, h2⟩
    · simp only [mbind_eq_ok h2]
      generalize hg2 : bump s1 "apt-get" (downloadArgs pkg) = s2
      have hp2 : s2.pkgs = s.pkgs := by rw [← hg2]; exact hp1
      rcases run_command_split beh "ls" [debPattern pkg] s2 with ⟨lso, h3⟩ | ⟨e3, h3⟩
      · simp only [mbind_eq_ok h3]
        generalize hg3 : bump s2 "ls" [debPattern pkg] = s3
        have hp3 : s3.pkgs = s.pkgs := by rw [← hg3]; exact hp2
        by_cases hdeb : splitNl (trimStr lso) = [] ∨ (splitNl (trimStr lso)).headD "" = ""
        · rw [if_pos hdeb]
          simp only [mthrow_eq]
          exact Or.inl ⟨_, s3, rfl, hp3⟩
        · rw [if_neg hdeb]
          rcases run_command_split beh "dpkg"
              (dpkgInstallArgs ((splitNl (trimStr lso)).headD "")) s3 with ⟨o4, h4⟩ | ⟨e4, h4⟩
          · simp only [mbind_eq_ok h4, mbind_load_installed]
            generalize hg4 :
              bump s3 "dpkg" (dpkgInstallArgs ((splitNl (trimStr lso)).headD "")) = s4
            have hp4 : s4.pkgs = s.pkgs := by rw [← hg4]; exact hp3
            have hL : loadInstalledList s4 = loadInstalledList s := loadInstalled_congr hp4
            simp only [hL]
            by_cases hmem : pkg ∈ loadInstalledList s
            · rw [if_pos hmem]
              simp only [mpure_eq]
              exact Or.inr ⟨s4, rfl, Or.inl ⟨hmem, hp4⟩⟩
            · rw [if_neg hmem]
              simp only [mbind_save_installed, mpure_eq]
              exact Or.inr ⟨_, rfl, Or.inr ⟨hmem, rfl⟩⟩
          · simp only [mbind_eq_err h4]
            exact Or.inl ⟨e4, _, rfl, by rw [bump_pkgs]; exact hp3⟩
      · simp only [mbind_eq_err h3]
        exact Or.inl ⟨e3, _, rfl, by rw [bump_pkgs]; exact hp2⟩
    · simp only [mbind_eq_err h2]
      exact Or.inl ⟨e2, _, rfl, by rw [bump_pkgs]; exact hp1⟩
  · simp only [mbind_eq_err h1]
    exact Or.inl ⟨e1, _, rfl, rfl⟩

theorem run_command_state (beh : Beh) (cmd : String) (args : List String) (s : St) :
    (run_command beh cmd args s).2 = bump s cmd args := by
  rcases run_command_split beh cmd args s with ⟨o, h⟩ | ⟨e, h⟩ <;> rw [h]

theorem install_error_pkgs {beh : Beh} {pkg : String} {s s' : St} {e : String}
    (h : install_package beh pkg s = (Except.error e, s')) : s'.pkgs = s.pkgs := by
  rcases install_package_total beh pkg s with ⟨e2, s2, h2, hp⟩ | ⟨s2, h2, _⟩
  · rw [h] at h2
    injection h2 with _ hs
    rw [hs]
    exact hp
  · rw [h] at h2
    injection h2 with hres _
    exact Except.noConfusion hres

theorem install_mem_pkgs {beh : Beh} {pkg : String} {s s' : St} {r : Except String Unit}
    (hmem : pkg ∈ loadInstalledList s)
    (h : install_package beh pkg s = (r, s')) : s'.pkgs = s.pkgs := by
  rcases install_package_total beh pkg s with ⟨e2, s2, h2, hp⟩ | ⟨s2, h2, hc⟩
  · rw [h] at h2
    injection h2 with _ hs
    rw [hs]
    exact hp
  · rw [h] at h2
    injection h2 with _ hs
    rcases hc with ⟨_, hp⟩ | ⟨hnot, _⟩
    · rw [hs]
      exact hp
    · exact absurd hmem hnot

theorem install_ok_pkgs_of_not_mem {beh : Beh} {pkg : String} {s s' : St}
    (hnot : pkg ∉ loadInstalledList s)
    (h : install_package beh pkg s = (Except.ok (), s')) :
    s'.pkgs = some ((loadInstalledList s ++ [pkg]).flatMap fun q => splitNl q) := by
  rcases install_package_total beh pkg s with ⟨e2, s2, h2, _⟩ | ⟨s2, h2, hc⟩
  · rw [h] at h2
    injection h2 with hres _
    exact Except.noConfusion hres
  · rw [h] at h2
    injection h2 with _ hs
    rcases hc with ⟨hmem, _⟩ | ⟨_, hp⟩
    · exact absurd hmem hnot
    · rw [hs]
      exact hp

theorem loadI_entries_clean (s : St) (hwf : WfSt s) :
    ∀ e ∈ loadInstalledList s, trimStr e = e ∧ '\n' ∉ e.data ∧ e ≠ "" := by
  intro e he
  unfold loadInstalledList at he
  rw [List.mem_filter] at he
  obtain ⟨hm, hne⟩ := he
  rw [List.mem_map] at hm
  obtain ⟨line, hline, rfl⟩ := hm
  refine ⟨trimStr_idem line, ?_, of_decide_eq_true hne⟩
  intro hc
  exact hwf line hline (mem_of_mem_trimData hc)

theorem clean_lines_roundtrip (l : List String)
    (hclean : ∀ e ∈ l, trimStr e = e ∧ '\n' ∉ e.data) :
    ((l.flatMap fun q => splitNl q).map trimStr).filter (fun q => q ≠ "") =
      l.filter (fun q => q ≠ "") := by
  induction l with
  | nil => rfl
  | cons e l ih =>
    obtain ⟨he1, he2⟩ := hclean e (List.mem_cons_self e l)
    have hrest := ih fun x hx => hclean x (List.mem_cons_of_mem e hx)
    rw [List.flatMap_cons, splitNl_no_nl he2, List.singleton_append, List.map_cons, he1,
      List.filter_cons, List.filter_cons, hrest]

theorem filter_ne_empty_of_clean (l : List String) (h : ∀ e ∈ l, e ≠ "") :
    l.filter (fun q => q ≠ "") = l := by
  rw [List.filter_eq_self]
  intro a ha
  exact decide_eq_true (h a ha)

/-- C1: `upgrade_packages` first refreshes the cache, then re-runs
`install_package` for each installed name in stored order; the first
failing install aborts the whole operation, so the final state is exactly
the state reached by the failing install (no later package is attempted,
the trailing `rest` of the list never runs), and a package `a` whose own
install succeeded beforehand is still recorded as installed. -/
theorem upgrade_aborts_on_first_failure (beh : Beh) (a b e : String) (rest : List String)
    (st st1 st2 st3 : St)
    (hu : apt_update beh st = (Except.ok (), st1))
    (hl : loadInstalledList st1 = a :: b :: rest)
    (ha : install_package beh a st1 = (Except.ok (), st2))
    (hb : install_package beh b st2 = (Except.error e, st3)) :
    upgrade_packages beh st = (Except.error e, st3) ∧ a ∈ loadInstalledList st3 := by
  constructor
  · unfold upgrade_packages
    simp only [mbind_eq_ok hu, mbind_load_installed, hl, install_each, mbind_eq_ok ha,
      mbind_eq_err hb]
  · have hmem1 : a ∈ loadInstalledList st1 := by
      rw [hl]
      exact List.mem_cons_self a (b :: rest)
    have h2 : st2.pkgs = st1.pkgs := install_mem_pkgs hmem1 ha
    have h3 : st3.pkgs = st2.pkgs := install_error_pkgs hb
    rw [loadInstalled_congr (h3.trans h2), hl]
    exact List.mem_cons_self a (b :: rest)

/-- Witness for C1: with installed set `{a, b}` and an oracle failing
exactly the `apt-get download b` step, `upgrade` stops with that error and
`a` is still recorded as installed. -/
theorem upgrade_aborts_on_first_failure_witness :
    (upgrade_packages behDownloadBFails stAB).1 =
      Except.error ("Command failed: apt-get\nStderr: no candidate") ∧
    "a" ∈ loadInstalledList (upgrade_packages behDownloadBFails stAB).2 := by
  have h := upgrade_aborts_on_first_failure behDownloadBFails "a" "b" _ [] stAB _ _ _
    rfl rfl rfl rfl
  refine ⟨?_, ?_⟩
  · rw [h.1]
    rfl
  · rw [h.1]
    exact h.2

/-- C2 counterexample: `resync_overlay` is not identical to
`upgrade_packages`.  With an empty installed set and every external
command failing, `upgrade` fails at its initial cache refresh while
`resync` (which has no such refresh) succeeds. -/
theorem resync_differs_from_upgrade :
    (resync_overlay behFail stEmpty).1 = Except.ok () ∧
    (upgrade_packages behFail stEmpty).1 =
      Except.error ("Command failed: apt-get\nStderr: network down") :=
  ⟨rfl, rfl⟩

/-- C2 (amended): `upgrade_packages` is `apt_update` followed by exactly
`resync_overlay`'s per-package logic: whenever the initial cache refresh
succeeds, `upgrade` from the original state equals `resync` started from
the post-refresh state (same result and same final state). -/
theorem upgrade_eq_refresh_then_resync (beh : Beh) (st st1 : St)
    (hu : apt_update beh st = (Except.ok (), st1)) :
    upgrade_packages beh st = resync_overlay beh st1 := by
  unfold upgrade_packages resync_overlay
  rw [mbind_eq_ok hu]

/-- Witness for the amended C2 at a concrete state and oracle. -/
theorem upgrade_eq_refresh_then_resync_witness :
    upgrade_packages behAll stAB =
      resync_overlay behAll (apt_update behAll stAB).2 :=
  upgrade_eq_refresh_then_resync behAll stAB _ rfl

/-- C3: if the download step succeeds but the `ls` glob step reports no
matching archive (empty listing), `install_package` fails with the
not-found error naming the package, and the installed-package store is
left unmodified. -/
theorem install_no_archive_not_found (beh : Beh) (pkg dout lsOut : String)
    (st st1 st2 st3 : St)
    (hu : apt_update beh st = (Except.ok (), st1))
    (hd : run_command beh "apt-get" (downloadArgs pkg) st1 = (Except.ok dout, st2))
    (hls : run_command beh "ls" [debPattern pkg] st2 = (Except.ok lsOut, st3))
    (hempty : trimStr lsOut = "") :
    install_package beh pkg st = (Except.error ("No .deb file found for " ++ pkg), st3) ∧
    st3.pkgs = st.pkgs := by
  constructor
  · unfold install_package
    simp only [mbind_ensure, mbind_eq_ok hu, mbind_create_temp, mbind_eq_ok hd,
      mbind_eq_ok hls, hempty]
    rw [if_pos (show splitNl "" = [] ∨ (splitNl "").headD "" = "" from Or.inr rfl)]
    rfl
  · have h1 : (apt_update beh st).2 = st1 := by rw [hu]
    have p1 : st1.pkgs = st.pkgs := by
      rw [← h1, apt_update_state]
      rfl
    have h2 : (run_command beh "apt-get" (downloadArgs pkg) st1).2 = st2 := by rw [hd]
    have p2 : st2.pkgs = st1.pkgs := by
      rw [← h2, run_command_state]
      rfl
    have h3 : (run_command beh "ls" [debPattern pkg] st2).2 = st3 := by rw [hls]
    have p3 : st3.pkgs = st2.pkgs := by
      rw [← h3, run_command_state]
      rfl
    exact p3.trans (p2.trans p1)

/-- Witness for C3: installing `foo` under an oracle whose `ls` reports an
empty listing fails with the not-found error naming `foo` and leaves the
store untouched. -/
theorem install_no_archive_not_found_witness :
    (install_package behLsEmpty "foo" stEmpty).1 =
      Except.error "No .deb file found for foo" ∧
    (install_package behLsEmpty "foo" stEmpty).2.pkgs = stEmpty.pkgs := by
  have h := install_no_archive_not_found behLsEmpty "foo" _ _ stEmpty _ _ _ rfl rfl rfl rfl
  refine ⟨?_, ?_⟩
  · rw [h.1]
    rfl
  · rw [h.1]
    exact h.2

/-- C4 counterexample: the claimed no-duplicates invariant fails for a
package name that is not equal to its own trimmed form.  Installing
`" a"` over a store holding `a` succeeds, the raw name is appended
(`contains` compares it against the trimmed stored names), and the store
then reads back as `[a, a]`. -/
theorem install_untrimmed_creates_duplicate :
    (install_package behAll " a" stA).1 = Except.ok () ∧
    (loadInstalledList stA).Nodup ∧
    ¬ (loadInstalledList (install_package behAll " a" stA).2).Nodup := by
  refine ⟨rfl, by decide, by decide⟩

/-- C4 (amended): a successful install of a name already present in the
store leaves the stored content untouched (no duplicate appears), for any
name; and after a successful install of a name that is its own trimmed
form and contains no newline, the stored sequence has no duplicate names
provided it had none before (over a well-formed store). -/
theorem install_preserves_nodup (beh : Beh) (pkg : String) (st st' : St)
    (r : Except String Unit)
    (h : install_package beh pkg st = (r, st')) :
    (pkg ∈ loadInstalledList st → st'.pkgs = st.pkgs) ∧
    (r = Except.ok () → trimStr pkg = pkg → '\n' ∉ pkg.data → WfSt st →
      (loadInstalledList st).Nodup → (loadInstalledList st').Nodup) := by
  constructor
  · intro hmem
    exact install_mem_pkgs hmem h
  · intro hr htrim hnl hwf hnodup
    subst hr
    by_cases hmem : pkg ∈ loadInstalledList st
    · rw [loadInstalled_congr (install_mem_pkgs hmem h)]
      exact hnodup
    · have hp := install_ok_pkgs_of_not_mem hmem h
      have hclean : ∀ e ∈ loadInstalledList st ++ [pkg], trimStr e = e ∧ '\n' ∉ e.data := by
        intro e he
        rcases List.mem_append.mp he with hin | hin
        · obtain ⟨h1, h2, _⟩ := loadI_entries_clean st hwf e hin
          exact ⟨h1, h2⟩
        · rw [List.mem_singleton.mp hin]
          exact ⟨htrim, hnl⟩
      have hload : loadInstalledList st' =
          (loadInstalledList st ++ [pkg]).filter (fun q => q ≠ "") := by
        have hstep : loadInstalledList st' =
            (((loadInstalledList st ++ [pkg]).flatMap fun q => splitNl q).map
              trimStr).filter (fun q => q ≠ "") := by
          unfold loadInstalledList
          rw [hp]
          rfl
        rw [hstep, clean_lines_roundtrip _ hclean]
      rw [hload]
      refine List.Nodup.filter _ ?_
      rw [List.nodup_append]
      exact ⟨hnodup, List.nodup_singleton pkg, by simpa using hmem⟩

/-- Witness for the amended C4: a clean install over a clean store keeps
the stored sequence duplicate-free. -/
theorem install_preserves_nodup_witness :
    (loadInstalledList (install_package behAll "b" stA).2).Nodup := by
  have h := install_preserves_nodup behAll "b" stA _ _ rfl
  exact h.2 rfl rfl (by decide) (by simp only [WfSt]; decide) (by decide)

/-- C5: removing a repository at an index below the current length erases
exactly that entry and persists; at an index at or beyond the length it
fails with the invalid-index error and the stored sequence (the whole
state) is unchanged. -/
theorem remove_repo_spec (i : Nat) (st : St) :
    ((reposList st).length ≤ i → remove_repo i st = (Except.error "Invalid index", st)) ∧
    (i < (reposList st).length →
      remove_repo i st = (Except.ok (), { st with repos := some ((reposList st).eraseIdx i) })) := by
  constructor
  · intro hle
    unfold remove_repo
    simp only [mbind_load_repos]
    rw [if_neg (Nat.not_lt.mpr hle)]
    rfl
  · intro hlt
    unfold remove_repo
    simp only [mbind_load_repos]
    rw [if_pos hlt]
    simp only [mbind_save_repos, mpure_eq]

/-- Witness for C5 on a two-entry store: index 5 is rejected without
change, index 0 removes the first entry. -/
theorem remove_repo_spec_witness :
    remove_repo 5 stR = (Except.error "Invalid index", stR) ∧
    remove_repo 0 stR = (Except.ok (), { stR with repos := some ["r1"] }) :=
  ⟨(remove_repo_spec 5 stR).1 (by decide), (remove_repo_spec 0 stR).2 (by decide)⟩

/-- C6: saving a repository sequence and then loading returns exactly that
sequence, in order (save followed by load is the identity on the store). -/
theorem save_then_load_repos (l : List String) (st : St) :
    (save_repos l st).1 = Except.ok () ∧
    load_repos ((save_repos l st).2) = (Except.ok l, (save_repos l st).2) :=
  ⟨rfl, rfl⟩

/-- C7: loading the repository store with the backing file absent succeeds
with the empty sequence and leaves the state unchanged. -/
theorem load_repos_absent (st : St) (h : st.repos = none) :
    load_repos st = (Except.ok [], st) := by
  unfold load_repos reposList
  rw [h]
  rfl

/-- Witness for C7 at the concrete initial state with no files. -/
theorem load_repos_absent_witness : load_repos stEmpty = (Except.ok [], stEmpty) :=
  load_repos_absent stEmpty rfl

/-- C8: removing a package name not present in the installed store leaves
the store's contents unchanged, and when the external removal command
succeeds the operation itself succeeds (the filter of a non-matching name
is a no-op on the stored sequence). -/
theorem remove_package_absent (beh : Beh) (pkg out : String) (st st1 : St)
    (hwf : WfSt st)
    (hpkg : pkg ∉ loadInstalledList st)
    (hdpkg : run_command beh "dpkg" (dpkgRemoveArgs pkg) st = (Except.ok out, st1)) :
    (remove_package beh pkg st).1 = Except.ok () ∧
    loadInstalledList (remove_package beh pkg st).2 = loadInstalledList st := by
  have h1 : (run_command beh "dpkg" (dpkgRemoveArgs pkg) st).2 = st1 := by rw [hdpkg]
  have hp1 : st1.pkgs = st.pkgs := by
    rw [← h1, run_command_state]
    rfl
  have hL1 : loadInstalledList st1 = loadInstalledList st := loadInstalled_congr hp1
  have hclean := loadI_entries_clean st hwf
  have hfilter : (loadInstalledList st).filter (fun q => q ≠ pkg) = loadInstalledList st := by
    rw [List.filter_eq_self]
    intro a ha
    exact decide_eq_true fun he => hpkg (he ▸ ha)
  have hgoal : loadInstalledList
      { st1 with pkgs := some ((loadInstalledList st).flatMap fun p => splitNl p) } =
      loadInstalledList st := by
    have hstep : loadInstalledList
        { st1 with pkgs := some ((loadInstalledList st).flatMap fun p => splitNl p) } =
        (((loadInstalledList st).flatMap fun q => splitNl q).map trimStr).filter
          (fun q => q ≠ "") := rfl
    rw [hstep, clean_lines_roundtrip _ fun e he => ⟨(hclean e he).1, (hclean e he).2.1⟩]
    exact filter_ne_empty_of_clean _ fun e he => (hclean e he).2.2
  constructor
  · unfold remove_package
    simp only [mbind_eq_ok hdpkg, mbind_load_installed, hL1, hfilter, mbind_save_installed,
      mpure_eq]
  · unfold remove_package
    simp only [mbind_eq_ok hdpkg, mbind_load_installed, hL1, hfilter, mbind_save_installed,
      mpure_eq]
    exact hgoal

/-- Witness for C8: removing `b` from a store holding only `a` succeeds
under an all-success oracle and leaves the loaded contents `[a]`. -/
theorem remove_package_absent_witness :
    (remove_package behAll "b" stA).1 = Except.ok () ∧
    loadInstalledList (remove_package behAll "b" stA).2 = loadInstalledList stA :=
  remove_package_absent behAll "b" _ stA _ (by simp only [WfSt]; decide) (by decide) rfl

/-- The dispatch `match`'s wildcard arm prints the static usage summary
and returns success, touching neither store. -/
theorem main_usage_on_unmatched (beh : Beh) (st : St) :
    mainRun beh Cmd.cOther st = (Except.ok usageText, st) := rfl

/-- C10: `rollback` issues exactly one external command — the image tool's
undeploy of slot 0 — and leaves both persistent stores unchanged, whether
that command succeeds or fails (for every oracle). -/
theorem rollback_only_undeploy (beh : Beh) (st : St) :
    (rollback beh st).2.repos = st.repos ∧
    (rollback beh st).2.pkgs = st.pkgs ∧
    (rollback beh st).2.trace = st.trace ++ [("ostree", ["admin", "undeploy", "0"])] := by
  refine ⟨?_, ?_, ?_⟩ <;> rw [rollback_state] <;> rfl

theorem get_matches_unknown (t : String) (rest : List String) (h : t ∉ clapTopNames) :
    get_matches (t :: rest) =
      Except.error ("error: unrecognized or invalid arguments: " ++
        String.intercalate " " (t :: rest)) := by
  simp only [clapTopNames, List.mem_cons, List.not_mem_nil, or_false, not_or] at h
  obtain ⟨h1, h2, h3, h4, h5, h6, h7, h8, h9, h10, h11, h12⟩ := h
  simp only [get_matches]
  rw [if_neg h1, if_neg h2, if_neg h3, if_neg h4, if_neg h5, if_neg h6, if_neg h7,
    if_neg h8, if_neg h9, if_neg h10, if_neg h11, if_neg h12]
  rfl

/-- C9 counterexample: an invocation with an unknown subcommand does not
print the usage summary and exit successfully; `clap` rejects it with an
error before the dispatch runs, a nonzero process exit. -/
theorem main_unknown_subcommand_error_exit :
    (mainFront behAll ["frobnicate"] stEmpty).1 =
      Except.error "error: unrecognized or invalid arguments: frobnicate" ∧
    (mainFront behAll ["frobnicate"] stEmpty).1 ≠ Except.ok usageText := by
  have h : (mainFront behAll ["frobnicate"] stEmpty).1 =
      Except.error "error: unrecognized or invalid arguments: frobnicate" := rfl
  refine ⟨h, ?_⟩
  rw [h]
  intro hc
  exact Except.noConfusion hc

/-- C9 (amended): an invocation with a missing subcommand reaches the
dispatch wildcard arm, prints the static usage summary and exits
successfully (exit status 0) with the state untouched; an invocation
whose first argument is not a declared subcommand is instead rejected by
the argument parser with an error exit before the dispatch runs. -/
theorem main_front_usage_spec (beh : Beh) (st : St) :
    mainFront beh [] st = (Except.ok usageText, st) ∧
    (∀ t rest, t ∉ clapTopNames →
      mainFront beh (t :: rest) st =
        (Except.error ("error: unrecognized or invalid arguments: " ++
          String.intercalate " " (t :: rest)), st)) := by
  constructor
  · rfl
  · intro t rest h
    unfold mainFront
    rw [get_matches_unknown t rest h]

/-- Witness for the amended C9 at concrete invocations: no arguments, and
the unknown subcommand `frobnicate`. -/
theorem main_front_usage_spec_witness :
    mainFront behAll [] stEmpty = (Except.ok usageText, stEmpty) ∧
    mainFront behAll ["frobnicate"] stEmpty =
      (Except.error "error: unrecognized or invalid arguments: frobnicate", stEmpty) := by
  have h := main_front_usage_spec behAll stEmpty
  refine ⟨h.1, ?_⟩
  rw [h.2 "frobnicate" [] (by decide)]
  rfl
